import Mathlib

/-!
Verification of the drawing-board repository's hub and stroke-classification
engine against its natural-language specification.

The Go sources are shallowly embedded:
* package `recognize` (ONNXRecognizer in `onnx.go`, the shared types in
  `types.go`, SimpleRecognizer in `simple.go`): strokes, the rasterizer
  `strokesToTensor`, the feature detectors, and `Recognize`;
* package `ws` (`hub.go`): the connection registry's `broadcast` and the
  per-message body of the session loop `Handle`.

Modelling conventions:
* Go `float64`/`float32` arithmetic is modelled over `ℚ`.  The rasterizer
  writes only the exact values 0 and 255/255 = 1 into the tensor, so no
  rounding behaviour is lost for the classification pipeline; `math.Sqrt`
  appears only under an `int(...)` truncation and is modelled by the integer
  square root `intSqrt`, via the identity ⌊√x⌋ = ⌊√⌊x⌋⌋ for nonnegative reals.
* The flat row-major tensor `tensor[y*width+x]` is modelled as the list of
  its rows (`tensorRows`); the flat tensor itself is its concatenation.
* Go's `map[string]float64` of features is modelled as an association list
  in insertion order with lookup defaulting to 0, matching map reads.
* The imperative grayscale image is modelled by the multiset of pixels the
  drawing loops set; a pixel is lit iff some drawing step set it.
-/

/-- Point as in the recognize and ws packages: two float coordinates. -/
structure Point where
  x : ℚ
  y : ℚ
deriving DecidableEq, Repr

/-- Stroke as in recognize/types.go: just its ordered points. -/
structure Stroke where
  points : List Point
deriving DecidableEq, Repr

/-- Candidate as in recognize/types.go: label text and confidence score. -/
structure Candidate where
  text : String
  score : ℚ
deriving DecidableEq, Repr

deriving instance DecidableEq for Except

/-- Go `int(q)` conversion for a float value: truncation toward zero. -/
def truncQ (q : ℚ) : Int :=
  if q < 0 then -(⌊-q⌋) else ⌊q⌋

/-- Largest k ≤ fuel with k² ≤ n, by downward search. -/
def sqrtFuel (n : Nat) : Nat → Nat
  | 0 => 0
  | k + 1 => if (k + 1) * (k + 1) ≤ n then k + 1 else sqrtFuel n k

/-- Integer square root ⌊√n⌋, modelling Go's `int(math.Sqrt x)` through the
identity ⌊√x⌋ = ⌊√⌊x⌋⌋ for nonnegative reals (the answer is at most n, so
fuel n suffices). -/
def intSqrt (n : Nat) : Nat := sqrtFuel n n

/-- Pixels set by the 3×3 block the rasterizer draws around (x, y); pixels
outside the raster bounds are silently clipped, as in the Go bounds check. -/
def block3x3 (w h : Nat) (x y : Int) : List (Int × Int) :=
  (([-1, 0, 1] : List Int).map (fun dy =>
    (([-1, 0, 1] : List Int).map (fun dx =>
      (x + dx, y + dy))).filter (fun p =>
        decide (0 ≤ p.1 ∧ p.1 < (w : Int) ∧ 0 ≤ p.2 ∧ p.2 < (h : Int))))).flatten

/-- Pixels set while walking the parametrized segment between two
consecutive stroke points, as in the inner loop of `strokesToTensor`:
`steps = int(dist)+1` and for j = 0..steps the block at
`(int(x1+t*dx), int(y1+t*dy))` with `t = j/steps` is drawn. -/
def segmentPixels (w h : Nat) (p1 p2 : Point) : List (Int × Int) :=
  let dx := p2.x - p1.x
  let dy := p2.y - p1.y
  let steps := intSqrt (dx * dx + dy * dy).floor.toNat + 1
  ((List.range (steps + 1)).map (fun j =>
    let t : ℚ := (j : ℚ) / (steps : ℚ)
    block3x3 w h (truncQ (p1.x + t * dx)) (truncQ (p1.y + t * dy)))).flatten

/-- Pixels one stroke sets: a stroke with no points is skipped; otherwise
every point gets a 3×3 block and every consecutive point pair is walked. -/
def strokePixels (w h : Nat) (s : Stroke) : List (Int × Int) :=
  if s.points.length < 1 then []
  else
    (s.points.map (fun p => block3x3 w h (truncQ p.x) (truncQ p.y))).flatten ++
    ((s.points.zip s.points.tail).map (fun q => segmentPixels w h q.1 q.2)).flatten

/-- All pixels the drawing loops of `strokesToTensor` set. -/
def activePixels (strokes : List Stroke) (w h : Nat) : List (Int × Int) :=
  (strokes.map (strokePixels w h)).flatten

/-- Whether the grayscale image holds 255 at (x, y): some drawing step set it. -/
def isActiveB (strokes : List Stroke) (w h : Nat) (x y : Nat) : Bool :=
  decide (((x : Int), (y : Int)) ∈ activePixels strokes w h)

/-- Rows of the tensor `strokesToTensor` produces: cell (x, y) is
`gray/255`, i.e. exactly 1 where the image was drawn and 0 elsewhere. -/
def tensorRows (strokes : List Stroke) (w h : Nat) : List (List ℚ) :=
  (List.range h).map (fun y =>
    (List.range w).map (fun x => if isActiveB strokes w h x y then (1 : ℚ) else 0))

/-- Flat row-major tensor returned by `strokesToTensor` (its error result is
always nil in the source, so the value alone is modelled). -/
def strokesToTensor (strokes : List Stroke) (w h : Nat) : List ℚ :=
  (tensorRows strokes w h).flatten

/-- Scan of one row with the running `lineLength` / `maxLineLength` pair used
by every line detector; returns the final `maxLineLength`, i.e. the length of
the longest contiguous run of cells with value > 0.1. -/
def maxRunAux : List ℚ → Nat → Nat → Nat
  | [], cur, best => max best cur
  | v :: rest, cur, best =>
    if (0.1 : ℚ) < v then maxRunAux rest (cur + 1) best
    else maxRunAux rest 0 (max best cur)

/-- Longest active run of a row, scanned as in the Go inner loops. -/
def maxRun (row : List ℚ) : Nat := maxRunAux row 0 0

/-- State machine of the `inLine` loops of `detectHorizontalLines` /
`detectVerticalLines`: a rising edge increments the count, anything else
just records the current flag. -/
def countGroupsAux : List Bool → Bool → Nat → Nat
  | [], _, acc => acc
  | b :: rest, inl, acc =>
    if b && !inl then countGroupsAux rest true (acc + 1)
    else countGroupsAux rest b acc

/-- Count of maximal contiguous groups of `true` entries. -/
def countGroups (bs : List Bool) : Nat := countGroupsAux bs false 0

/-- detectHorizontalLines: a row qualifies when its longest active run is at
least `width/10`; vertically contiguous qualifying rows count once. -/
def detectHorizontalLines (g : List (List ℚ)) (w _h : Nat) : Nat :=
  countGroups (g.map (fun row => decide (w / 10 ≤ maxRun row)))

/-- Column x of the grid, i.e. the traversal `tensor[y*width+x]` the
column loops of the Go source make, y increasing with x fixed (the detectors
only read columns with x < width, which the rasterizer's rows all cover). -/
def colAt (g : List (List ℚ)) (x : Nat) : List ℚ :=
  g.map (fun row => row.getD x 0)

/-- detectVerticalLines: same over the columns with minimum `height/10`. -/
def detectVerticalLines (g : List (List ℚ)) (w h : Nat) : Nat :=
  countGroups ((List.range w).map (fun x => decide (h / 10 ≤ maxRun (colAt g x))))

/-- Best (longest) active run over the rows, tracked row by row as in
`detectCross`'s `bestHorizontalLength` loop. -/
def bestRun (g : List (List ℚ)) : Nat :=
  g.foldl (fun b row => max b (maxRun row)) 0

/-- Best (longest) active run over the columns, as in `detectCross`'s
`bestVerticalLength` loop over x < width. -/
def bestRunCols (g : List (List ℚ)) (w : Nat) : Nat :=
  (List.range w).foldl (fun b x => max b (maxRun (colAt g x))) 0

/-- detectCross: 1.0 iff the longest horizontal run exceeds `width/3` and the
longest vertical run exceeds `height/3`, else 0.0. -/
def detectCross (g : List (List ℚ)) (w h : Nat) : ℚ :=
  if w / 3 < bestRun g ∧ h / 3 < bestRunCols g w then 1 else 0

/-- detectThreeHorizontal: 1.0 iff detectHorizontalLines ≥ 3. -/
def detectThreeHorizontal (g : List (List ℚ)) (w h : Nat) : ℚ :=
  if 3 ≤ detectHorizontalLines g w h then 1 else 0

/-- detectTwoHorizontal: 1.0 iff detectHorizontalLines ≥ 2. -/
def detectTwoHorizontal (g : List (List ℚ)) (w h : Nat) : ℚ :=
  if 2 ≤ detectHorizontalLines g w h then 1 else 0

/-- detectSingleHorizontal: 1.0 iff at least one horizontal and no vertical
line is detected (both detectors re-run, as in the source). -/
def detectSingleHorizontal (g : List (List ℚ)) (w h : Nat) : ℚ :=
  if 1 ≤ detectHorizontalLines g w h ∧ detectVerticalLines g w h = 0 then 1 else 0

/-- detectSingleVertical: 1.0 iff at least one vertical and no horizontal. -/
def detectSingleVertical (g : List (List ℚ)) (w h : Nat) : ℚ :=
  if 1 ≤ detectVerticalLines g w h ∧ detectHorizontalLines g w h = 0 then 1 else 0

/-- Grid cell read `tensor[y*width+x]` used by the diagonal walker; callers
only read in bounds. -/
def cellAt (g : List (List ℚ)) (x y : Int) : ℚ :=
  (g.getD y.toNat []).getD x.toNat 0

/-- Walk one diagonal ray of `detectDiagonalLines`, counting runs of length
at least `minLen`; `fuel` dominates the number of in-bounds steps. -/
def diagWalk (g : List (List ℚ)) (w h minLen : Nat) :
    Nat → Int → Int → Int → Int → Nat → Nat → Nat
  | 0, _, _, _, _, run, acc => if minLen ≤ run then acc + 1 else acc
  | fuel + 1, x, y, dx, dy, run, acc =>
    if 0 ≤ x ∧ x < (w : Int) ∧ 0 ≤ y ∧ y < (h : Int) then
      if (0.1 : ℚ) < cellAt g x y then
        diagWalk g w h minLen fuel (x + dx) (y + dy) dx dy (run + 1) acc
      else
        diagWalk g w h minLen fuel (x + dx) (y + dy) dx dy 0
          (if minLen ≤ run then acc + 1 else acc)
    else if minLen ≤ run then acc + 1 else acc

/-- detectDiagonalLines: runs of length ≥ `hypot(w,h)/8` along all four
diagonal directions scanned from every start cell (a deliberate over-count,
per the source comment). -/
def detectDiagonalLines (g : List (List ℚ)) (w h : Nat) : Nat :=
  let minLen := intSqrt (w * w + h * h) / 8
  (([((1 : Int), (1 : Int)), (1, -1), (-1, 1), (-1, -1)]).foldl (fun acc d =>
    (List.range h).foldl (fun acc sy =>
      (List.range w).foldl (fun acc sx =>
        diagWalk g w h minLen (w + h + 2) (sx : Int) (sy : Int) d.1 d.2 0 acc)
        acc) acc) 0)

/-- Count of active cells (value > 0.1), as accumulated by the y-outer
x-inner statistics loop of `analyzeTensorFeatures`. -/
def densityCount (g : List (List ℚ)) : Nat :=
  (g.map (fun row => row.countP (fun v => decide ((0.1 : ℚ) < v)))).sum

/-- Coordinates (x, y) of the active cells, in the y-outer scan order of
`analyzeTensorFeatures`; they drive the bounding-box features. -/
def activeCoords (g : List (List ℚ)) : List (Nat × Nat) :=
  (g.enum.map (fun r =>
    r.2.enum.filterMap (fun c =>
      if (0.1 : ℚ) < c.2 then some (c.1, r.1) else none))).flatten

/-- Bounding box (minX, maxX, minY, maxY) of the active cells, folded from
the Go initial values minX = width, minY = height, maxX = maxY = 0. -/
def boundingBox (g : List (List ℚ)) (w h : Nat) : Nat × Nat × Nat × Nat :=
  ((activeCoords g).foldl (fun m c => min m c.1) w,
   (activeCoords g).foldl (fun m c => max m c.1) 0,
   (activeCoords g).foldl (fun m c => min m c.2) h,
   (activeCoords g).foldl (fun m c => max m c.2) 0)

/-- analyzeTensorFeatures: the feature map, as an association list in the
insertion order of the source. -/
def analyzeTensorFeatures (g : List (List ℚ)) (w h : Nat) : List (String × ℚ) :=
  [("density", (densityCount g : ℚ) / ((w * h : Nat) : ℚ)),
   ("aspect_ratio",
     (((boundingBox g w h).2.1 : ℚ) - ((boundingBox g w h).1 : ℚ) + 1) /
     (((boundingBox g w h).2.2.2 : ℚ) - ((boundingBox g w h).2.2.1 : ℚ) + 1)),
   ("center_offset_x",
     |(((boundingBox g w h).1 : ℚ) + ((boundingBox g w h).2.1 : ℚ)) / 2 - (w : ℚ) / 2| /
       ((w : ℚ) / 2)),
   ("center_offset_y",
     |(((boundingBox g w h).2.2.1 : ℚ) + ((boundingBox g w h).2.2.2 : ℚ)) / 2 - (h : ℚ) / 2| /
       ((h : ℚ) / 2)),
   ("horizontal_lines", (detectHorizontalLines g w h : ℚ)),
   ("vertical_lines", (detectVerticalLines g w h : ℚ)),
   ("diagonal_lines", (detectDiagonalLines g w h : ℚ)),
   ("has_cross", detectCross g w h),
   ("has_three_horizontal", detectThreeHorizontal g w h),
   ("has_two_horizontal", detectTwoHorizontal g w h),
   ("has_single_horizontal", detectSingleHorizontal g w h),
   ("has_single_vertical", detectSingleVertical g w h)]

/-- Feature map read `features[k]`: first binding, defaulting to 0 like a Go
map read of an absent key. -/
def featGet (fs : List (String × ℚ)) (k : String) : ℚ :=
  ((fs.find? (fun p => p.1 == k)).map Prod.snd).getD 0

/-- Priority-based pattern rules of generateCandidatesFromFeatures (the five
leading `if` blocks), appended in source order. -/
def priorityCandidates (f : List (String × ℚ)) (strokeCount : Nat) : List Candidate :=
  (if strokeCount = 2 ∧ (0.5 : ℚ) < featGet f "has_cross" then
    [⟨"十", 0.95⟩, ⟨"＋", 0.8⟩] else []) ++
  (if strokeCount = 3 ∧ (0.5 : ℚ) < featGet f "has_three_horizontal" then
    [⟨"三", 0.95⟩, ⟨"ミ", 0.7⟩] else []) ++
  (if strokeCount = 2 ∧ (0.5 : ℚ) < featGet f "has_two_horizontal" then
    [⟨"二", 0.9⟩, ⟨"ニ", 0.7⟩] else []) ++
  (if strokeCount = 1 ∧ (0.5 : ℚ) < featGet f "has_single_horizontal" then
    [⟨"一", 0.9⟩, ⟨"ー", 0.7⟩] else []) ++
  (if strokeCount = 1 ∧ (0.5 : ℚ) < featGet f "has_single_vertical" then
    [⟨"丨", 0.9⟩, ⟨"｜", 0.7⟩] else [])

/-- Count-specific fallback block of generateCandidatesFromFeatures, run only
when no priority rule matched. -/
def fallbackCandidates (f : List (String × ℚ)) (strokeCount : Nat) : List Candidate :=
  (if strokeCount = 1 then
    (if (0.5 : ℚ) < featGet f "horizontal_lines" then [⟨"一", 0.7⟩, ⟨"ー", 0.5⟩]
     else if (0.5 : ℚ) < featGet f "vertical_lines" then [⟨"丨", 0.7⟩, ⟨"｜", 0.5⟩]
     else if featGet f "density" < (0.01 : ℚ) then [⟨"丶", 0.8⟩, ⟨"。", 0.6⟩]
     else [⟨"し", 0.6⟩, ⟨"く", 0.4⟩]) else []) ++
  (if strokeCount = 2 then
    (if (2 : ℚ) ≤ featGet f "horizontal_lines" then [⟨"二", 0.7⟩, ⟨"ニ", 0.5⟩]
     else if (1 : ℚ) ≤ featGet f "horizontal_lines" ∧ (1 : ℚ) ≤ featGet f "vertical_lines" then
       [⟨"十", 0.7⟩, ⟨"＋", 0.5⟩]
     else [⟨"人", 0.6⟩, ⟨"入", 0.4⟩]) else []) ++
  (if strokeCount = 3 then
    (if (3 : ℚ) ≤ featGet f "horizontal_lines" then [⟨"三", 0.7⟩, ⟨"ミ", 0.5⟩]
     else if (1 : ℚ) ≤ featGet f "horizontal_lines" ∧ (1 : ℚ) ≤ featGet f "vertical_lines" then
       [⟨"大", 0.6⟩, ⟨"太", 0.4⟩]
     else [⟨"小", 0.5⟩, ⟨"川", 0.3⟩]) else []) ++
  (if 4 ≤ strokeCount then
    (if (2 : ℚ) ≤ featGet f "horizontal_lines" ∧ (2 : ℚ) ≤ featGet f "vertical_lines" then
      [⟨"中", 0.6⟩, ⟨"田", 0.5⟩] else []) ++
    [⟨"国", 0.5⟩, ⟨"学", 0.4⟩, ⟨"生", 0.3⟩] else [])

/-- Generic suggestion keyed only by stroke count, emitted when the candidate
list is still empty at the end. -/
def genericCandidates (strokeCount : Nat) : List Candidate :=
  if strokeCount = 1 then [⟨"一", 0.5⟩]
  else if strokeCount = 2 then [⟨"二", 0.5⟩]
  else if strokeCount = 3 then [⟨"三", 0.5⟩]
  else [⟨"中", 0.4⟩]

/-- Candidate list after the priority rules and, when they all missed, the
count-specific fallback block. -/
def candidatesWithFallback (f : List (String × ℚ)) (strokeCount : Nat) : List Candidate :=
  if (priorityCandidates f strokeCount).length = 0 then
    priorityCandidates f strokeCount ++ fallbackCandidates f strokeCount
  else priorityCandidates f strokeCount

/-- Candidate list after the density-based complexity append. -/
def candidatesWithDensity (f : List (String × ℚ)) (strokeCount : Nat) : List Candidate :=
  candidatesWithFallback f strokeCount ++
    (if (0.1 : ℚ) < featGet f "density" then [⟨"書", 0.3⟩, ⟨"字", 0.2⟩] else [])

/-- generateCandidatesFromFeatures before its final `topN` truncation: the
priority rules, the count-specific fallbacks, the density-based append and
the generic stroke-count fallback, in source order. -/
def generateCandidatesPre (f : List (String × ℚ)) (strokeCount : Nat) : List Candidate :=
  if (candidatesWithDensity f strokeCount).length = 0 then genericCandidates strokeCount
  else candidatesWithDensity f strokeCount

/-- generateCandidatesFromFeatures: the candidate list truncated to topN
(`candidates = candidates[:topN]` when longer). -/
def generateCandidatesFromFeatures (f : List (String × ℚ)) (strokeCount : Nat)
    (topN : Int) : List Candidate :=
  if topN < ((generateCandidatesPre f strokeCount).length : Int) then
    (generateCandidatesPre f strokeCount).take topN.toNat
  else generateCandidatesPre f strokeCount

/-- ONNXRecognizer.Recognize: topN ≤ 0 is replaced by 10, an empty stroke
list returns `ok []` before rasterizing, and otherwise the feature pipeline
runs on the `width×height` tensor (its error return is always nil). -/
def Recognize (strokes : List Stroke) (w h : Nat) (topN : Int) :
    Except String (List Candidate) :=
  let t : Int := if topN ≤ 0 then 10 else topN
  if strokes.length = 0 then .ok []
  else
    .ok (generateCandidatesFromFeatures
      (analyzeTensorFeatures (tensorRows strokes w h) w h) strokes.length t)

/-- SimpleRecognizer.Recognize from simple.go, parametrized by the per-stroke
direction and shape classifiers (`analyzeStrokeDirection` uses `math.Atan2`,
which has no exact rational counterpart; the claims checked here only
constrain paths that never call it). -/
def SimpleRecognize (dirOf shapeOf : Stroke → String)
    (strokes : List Stroke) (_w _h : Nat) (topN : Int) :
    Except String (List Candidate) :=
  let t : Int := if topN ≤ 0 then 10 else topN
  if strokes.length = 0 then .ok []
  else
    let totalPoints := (strokes.map (fun s => s.points.length)).sum
    let dirs := strokes.map dirOf
    let shapes := strokes.map shapeOf
    let c : List Candidate :=
      (if strokes.length = 1 then
        (if dirs.getD 0 "" = "horizontal" ∧ shapes.getD 0 "" = "straight" then
          [⟨"一", 0.9⟩, ⟨"ー", 0.7⟩]
         else if dirs.getD 0 "" = "vertical" ∧ shapes.getD 0 "" = "straight" then
          [⟨"丨", 0.9⟩, ⟨"｜", 0.7⟩]
         else if dirs.getD 0 "" = "dot" then [⟨"丶", 0.8⟩, ⟨"。", 0.6⟩]
         else if shapes.getD 0 "" = "curved" then [⟨"し", 0.7⟩, ⟨"く", 0.5⟩]
         else []) else []) ++
      (if strokes.length = 2 then
        (if dirs.getD 0 "" = "horizontal" ∧ dirs.getD 1 "" = "horizontal" then
          [⟨"二", 0.8⟩, ⟨"ニ", 0.6⟩]
         else if (dirs.getD 0 "" = "horizontal" ∧ dirs.getD 1 "" = "vertical") ∨
                 (dirs.getD 0 "" = "vertical" ∧ dirs.getD 1 "" = "horizontal") then
          [⟨"十", 0.8⟩, ⟨"＋", 0.6⟩]
         else if dirs.getD 0 "" = "diagonal_up" ∧ dirs.getD 1 "" = "diagonal_up" then
          [⟨"人", 0.7⟩, ⟨"入", 0.5⟩]
         else []) else []) ++
      (if strokes.length = 3 then
        (if dirs.getD 0 "" = "horizontal" ∧ dirs.getD 1 "" = "horizontal" ∧
            dirs.getD 2 "" = "horizontal" then [⟨"三", 0.8⟩, ⟨"ミ", 0.6⟩]
         else if dirs.getD 0 "" = "horizontal" ∧ dirs.getD 1 "" = "vertical" ∧
            dirs.getD 2 "" = "diagonal_down" then [⟨"大", 0.7⟩, ⟨"太", 0.5⟩]
         else []) else []) ++
      (if 4 ≤ strokes.length then
        (if 2 ≤ (dirs.filter (· == "horizontal")).length ∧
            2 ≤ (dirs.filter (· == "vertical")).length then
          [⟨"中", 0.6⟩, ⟨"田", 0.5⟩] else []) ++
        [⟨"国", 0.5⟩, ⟨"学", 0.4⟩, ⟨"生", 0.3⟩] else [])
    let c : List Candidate :=
      c ++ (if 20 < totalPoints then [⟨"書", 0.3⟩, ⟨"字", 0.2⟩] else [])
    let c : List Candidate := if c.length = 0 then genericCandidates strokes.length else c
    .ok (if t < (c.length : Int) then c.take t.toNat else c)

/-! Hub and session loop (package ws). -/

/-- Connection handles of the hub's client set, abstracted to tokens. -/
abbrev Conn := Nat

/-- Stroke of the ws package wire protocol. -/
structure WsStroke where
  id : Int
  points : List Point
  color : String
  width : Int
  clientId : String
  startedAtUnixMs : Int
deriving DecidableEq, Repr

/-- Wire message: the tagged union with `type`, optional `stroke` and
optional `delete` stroke id (here `del`). -/
structure WsMessage where
  type : String
  stroke : Option WsStroke
  del : Option Int
deriving DecidableEq, Repr

/-- Result of one `broadcast` pass over the registry. -/
structure BroadcastResult where
  sends : List (Conn × WsMessage)
  closed : List Conn
  clients : List Conn
deriving DecidableEq, Repr

/-- Hub.broadcast: the envelope is serialized once (marshalling of these
messages never fails) and sent to every registered connection in turn; a
failed send closes that connection and deletes it from the client set in the
same pass.  `sendOk` says whether `WriteMessage` succeeds for a connection;
`clients` is the registry content after the pass. -/
def broadcast (env : WsMessage) : List Conn → (Conn → Bool) → BroadcastResult
  | [], _ => ⟨[], [], []⟩
  | c :: rest, sendOk =>
    if sendOk c then
      ⟨(c, env) :: (broadcast env rest sendOk).sends,
        (broadcast env rest sendOk).closed,
        c :: (broadcast env rest sendOk).clients⟩
    else
      ⟨(broadcast env rest sendOk).sends,
        c :: (broadcast env rest sendOk).closed,
        (broadcast env rest sendOk).clients⟩

/-- Persistence calls the session loop can issue against the store. -/
inductive StoreCall where
  | save (uid : Int) (color : String) (width : Int) (ts : Int) (pts : List Point)
  | del (uid : Int) (id : Int)
deriving DecidableEq, Repr

/-- Observable outcome of handling one received envelope. -/
structure StepResult where
  storeCalls : List StoreCall
  broadcasts : List WsMessage
deriving DecidableEq, Repr

/-- Body of the session loop `Handle` for one decoded message: the `switch`
on the message type.  `authUid` is the result of
`Auth.UserIDFromRequest` (`none` when identity is unresolved), `now` the
server clock read `time.Now().UnixMilli()`, and `saveRes` what
`Store.SaveStroke` returns when called.  A save error is only logged, so the
stroke keeps its incoming id; the envelope (with its stroke mutated in
place) is broadcast afterwards either way. -/
def handleMessage (authUid : Option Int) (now : Int) (saveRes : Except String Int)
    (m : WsMessage) : StepResult :=
  if m.type = "stroke" then
    match m.stroke with
    | none => ⟨[], []⟩
    | some s0 =>
      let s1 := if s0.startedAtUnixMs = 0 then { s0 with startedAtUnixMs := now } else s0
      match authUid with
      | some uid =>
        let s2 := match saveRes with
          | .ok newId => { s1 with id := newId }
          | .error _ => s1
        ⟨[StoreCall.save uid s1.color s1.width s1.startedAtUnixMs s1.points],
         [{ m with stroke := some s2 }]⟩
      | none => ⟨[], [{ m with stroke := some s1 }]⟩
  else if m.type = "delete" then
    match m.del with
    | none => ⟨[], []⟩
    | some did =>
      match authUid with
      | some uid => ⟨[StoreCall.del uid did], [m]⟩
      | none => ⟨[], [m]⟩
  else ⟨[], []⟩

/-! General lemmas about the scan loops. -/

/-- Rows with no active cell scan to `max best cur`. -/
lemma maxRunAux_all_inactive {row : List ℚ} (h : ∀ v ∈ row, ¬((0.1 : ℚ) < v)) :
    ∀ cur best, maxRunAux row cur best = max best cur := by
  induction row with
  | nil => intro cur best; rfl
  | cons v r ih =>
    intro cur best
    have hv : ¬((0.1 : ℚ) < v) := h v (by simp)
    rw [maxRunAux, if_neg hv, ih (fun u hu => h u (by simp [hu]))]
    omega

/-- Rows with no active cell have longest run 0. -/
lemma maxRun_all_inactive {row : List ℚ} (h : ∀ v ∈ row, ¬((0.1 : ℚ) < v)) :
    maxRun row = 0 := by
  rw [maxRun, maxRunAux_all_inactive h]; simp

/-- Scanning an all-active segment extends the current run by its length. -/
lemma maxRunAux_active_seg {s : List ℚ} (h : ∀ v ∈ s, (0.1 : ℚ) < v) :
    ∀ (rest : List ℚ) cur best,
      maxRunAux (s ++ rest) cur best = maxRunAux rest (cur + s.length) best := by
  induction s with
  | nil => intro rest cur best; simp
  | cons v s' ih =>
    intro rest cur best
    have hv : (0.1 : ℚ) < v := h v (by simp)
    rw [List.cons_append, maxRunAux, if_pos hv, ih (fun u hu => h u (by simp [hu]))]
    congr 1
    simp [List.length_cons]
    omega

/-- Scanning a nonempty all-inactive segment flushes the current run. -/
lemma maxRunAux_inactive_seg {v0 : ℚ} {s : List ℚ}
    (h : ∀ v ∈ v0 :: s, ¬((0.1 : ℚ) < v)) :
    ∀ (rest : List ℚ) cur best,
      maxRunAux ((v0 :: s) ++ rest) cur best = maxRunAux rest 0 (max best cur) := by
  induction s generalizing v0 with
  | nil =>
    intro rest cur best
    have hv : ¬((0.1 : ℚ) < v0) := h v0 (by simp)
    rw [List.cons_append, maxRunAux, if_neg hv]; rfl
  | cons v1 s' ih =>
    intro rest cur best
    have hv : ¬((0.1 : ℚ) < v0) := h v0 (by simp)
    rw [List.cons_append, maxRunAux, if_neg hv,
      ih (fun u hu => h u (by simp at hu ⊢; tauto)) rest 0 (max best cur)]
    simp

/-- All-false flag lists leave the group count unchanged. -/
lemma countGroupsAux_all_false {bs : List Bool} (h : ∀ b ∈ bs, b = false) :
    ∀ inl acc, countGroupsAux bs inl acc = acc := by
  induction bs with
  | nil => intro inl acc; rfl
  | cons b r ih =>
    intro inl acc
    have hb : b = false := h b (by simp)
    subst hb
    rw [countGroupsAux, if_neg (by simp), ih (fun u hu => h u (by simp [hu]))]

/-- All-false group count is 0. -/
lemma countGroups_all_false {bs : List Bool} (h : ∀ b ∈ bs, b = false) :
    countGroups bs = 0 :=
  countGroupsAux_all_false h false 0

/-- A nonempty false segment resets the `inLine` flag. -/
lemma countGroupsAux_false_seg (n : Nat) :
    ∀ (rest : List Bool) inl acc,
      countGroupsAux (List.replicate (n + 1) false ++ rest) inl acc =
        countGroupsAux rest false acc := by
  induction n with
  | zero =>
    intro rest inl acc
    rw [List.replicate_succ, List.replicate_zero, List.cons_append, List.nil_append,
      countGroupsAux, if_neg (by simp)]
  | succ k ih =>
    intro rest inl acc
    rw [List.replicate_succ, List.cons_append, countGroupsAux, if_neg (by simp), ih]

/-- A true segment seen while already inside a group adds nothing. -/
lemma countGroupsAux_true_seg_inside (n : Nat) :
    ∀ (rest : List Bool) acc,
      countGroupsAux (List.replicate n true ++ rest) true acc =
        countGroupsAux rest true acc := by
  induction n with
  | zero => intro rest acc; simp
  | succ k ih =>
    intro rest acc
    rw [List.replicate_succ, List.cons_append, countGroupsAux, if_neg (by simp), ih]

/-- A nonempty true segment entered from outside a group counts once. -/
lemma countGroupsAux_true_seg (n : Nat) (rest : List Bool) (acc : Nat) :
    countGroupsAux (List.replicate (n + 1) true ++ rest) false acc =
      countGroupsAux rest true (acc + 1) := by
  rw [List.replicate_succ, List.cons_append, countGroupsAux, if_pos (by simp),
    countGroupsAux_true_seg_inside]

/-- Strict bound against a running maximum fold. -/
lemma lt_foldl_max {α : Type} (l : List α) (f : α → Nat) :
    ∀ (b t : Nat),
      (t < l.foldl (fun acc a => max acc (f a)) b ↔ t < b ∨ ∃ a ∈ l, t < f a) := by
  induction l with
  | nil => intro b t; simp
  | cons x r ih =>
    intro b t
    rw [List.foldl_cons, ih (max b (f x)) t]
    constructor
    · rintro (hb | ⟨a, ha, hfa⟩)
      · rcases lt_max_iff.mp hb with h | h
        · exact Or.inl h
        · exact Or.inr ⟨x, by simp, h⟩
      · exact Or.inr ⟨a, by simp [ha], hfa⟩
    · rintro (hb | ⟨a, ha, hfa⟩)
      · exact Or.inl (lt_max_iff.mpr (Or.inl hb))
      · rcases List.mem_cons.mp ha with rfl | ha'
        · exact Or.inl (lt_max_iff.mpr (Or.inr hfa))
        · exact Or.inr ⟨a, ha', hfa⟩

/-- Map of a three-band piecewise-constant function over `List.range`. -/
lemma range_map_bands {α : Type} (a b c : Nat) (f : Nat → α) (v1 v2 v3 : α)
    (h1 : ∀ y, y < a → f y = v1)
    (h2 : ∀ y, a ≤ y → y < a + b → f y = v2)
    (h3 : ∀ y, a + b ≤ y → y < a + b + c → f y = v3) :
    (List.range (a + b + c)).map f =
      List.replicate a v1 ++ List.replicate b v2 ++ List.replicate c v3 := by
  have key : ∀ (n off : Nat) (v : α), (∀ y, off ≤ y → y < off + n → f y = v) →
      (List.range n).map (fun i => f (off + i)) = List.replicate n v := by
    intro n off v hv
    refine List.eq_replicate_iff.mpr ⟨by simp, ?_⟩
    intro z hz
    rcases List.mem_map.mp hz with ⟨i, hi, rfl⟩
    exact hv _ (Nat.le_add_right _ _) (by have := List.mem_range.mp hi; omega)
  have h1' : (List.range a).map f = List.replicate a v1 := by
    refine List.eq_replicate_iff.mpr ⟨by simp, ?_⟩
    intro z hz
    rcases List.mem_map.mp hz with ⟨i, hi, rfl⟩
    exact h1 _ (List.mem_range.mp hi)
  rw [Nat.add_assoc a b c, List.range_add, List.range_add]
  simp only [List.map_append, List.map_map, List.append_assoc]
  rw [h1']
  congr 1
  congr 1
  · exact key b a v2 h2
  · calc (List.range c).map ((f ∘ (a + ·)) ∘ (b + ·))
        = (List.range c).map (fun i => f ((a + b) + i)) :=
          List.map_congr_left (fun i _ => by
            show f (a + (b + i)) = f (a + b + i)
            rw [Nat.add_assoc])
      _ = List.replicate c v3 := key c (a + b) v3 h3

/-! Characterization of the longest-run scan, used for the has_cross claim. -/

/-- The row contains a contiguous run of active cells (value > 0.1) of
length strictly greater than t.  This is the specification-side reading of
"the single longest run anywhere exceeds t". -/
def HasRunGT (t : Nat) (row : List ℚ) : Prop :=
  ∃ pre mid post, row = pre ++ mid ++ post ∧ t < mid.length ∧
    ∀ v ∈ mid, (0.1 : ℚ) < v

/-- Length of the longest all-active leading segment of a row. -/
def activeLead : List ℚ → Nat
  | [] => 0
  | v :: r => if (0.1 : ℚ) < v then activeLead r + 1 else 0

lemma hasRunGT_nil (t : Nat) : ¬ HasRunGT t [] := by
  rintro ⟨pre, mid, post, heq, hlen, _⟩
  have : mid = [] := by
    rcases List.append_eq_nil.mp (List.append_assoc pre mid post ▸ heq.symm) with ⟨_, h2⟩
    exact (List.append_eq_nil.mp h2).1
  subst this
  simp at hlen

lemma hasRunGT_cons {t : Nat} {row : List ℚ} (v : ℚ) (h : HasRunGT t row) :
    HasRunGT t (v :: row) := by
  rcases h with ⟨pre, mid, post, heq, hlen, hact⟩
  exact ⟨v :: pre, mid, post, by simp [heq], hlen, hact⟩

lemma activeLead_le_length (row : List ℚ) : activeLead row ≤ row.length := by
  induction row with
  | nil => simp [activeLead]
  | cons v r ih =>
    rw [activeLead]
    split
    · simpa using ih
    · simp

lemma take_activeLead_active (row : List ℚ) :
    ∀ v ∈ row.take (activeLead row), (0.1 : ℚ) < v := by
  induction row with
  | nil => simp
  | cons v r ih =>
    rw [activeLead]
    split
    · intro u hu
      rw [List.take_succ_cons] at hu
      rcases List.mem_cons.mp hu with rfl | hu'
      · assumption
      · exact ih u hu'
    · simp

/-- A row whose active leading segment is longer than t has a run beyond t. -/
lemma hasRunGT_of_lt_activeLead {t : Nat} {row : List ℚ}
    (h : t < activeLead row) : HasRunGT t row :=
  ⟨[], row.take (activeLead row), row.drop (activeLead row),
    by simp,
    by rw [List.length_take]; exact lt_min h (lt_of_lt_of_le h (activeLead_le_length row)),
    take_activeLead_active row⟩

/-- An all-active decomposition bounds the active leading segment below. -/
lemma length_le_activeLead_append (mid post : List ℚ)
    (hact : ∀ v ∈ mid, (0.1 : ℚ) < v) :
    mid.length ≤ activeLead (mid ++ post) := by
  induction mid with
  | nil => simp
  | cons m mid' ih =>
    have hm : (0.1 : ℚ) < m := hact m (by simp)
    rw [List.cons_append, activeLead, if_pos hm]
    have := ih (fun u hu => hact u (by simp [hu]))
    simp only [List.length_cons]
    omega

/-- Case analysis of a run in `v :: row`. -/
lemma hasRunGT_cons_elim {t : Nat} {v : ℚ} {row : List ℚ}
    (h : HasRunGT t (v :: row)) :
    t < activeLead (v :: row) ∨ HasRunGT t row := by
  rcases h with ⟨pre, mid, post, heq, hlen, hact⟩
  cases pre with
  | nil =>
    left
    simp only [List.nil_append] at heq
    calc t < mid.length := hlen
      _ ≤ activeLead (mid ++ post) := length_le_activeLead_append mid post hact
      _ = activeLead (v :: row) := by rw [heq]
  | cons p pre' =>
    right
    rcases List.cons_eq_cons.mp (by simpa using heq) with ⟨rfl, heq'⟩
    exact ⟨pre', mid, post, by rw [List.append_assoc]; exact heq', hlen, hact⟩

/-- Flushing into `best` commutes with taking the running maximum. -/
lemma maxRunAux_best (row : List ℚ) :
    ∀ cur best, maxRunAux row cur best = max best (maxRunAux row cur 0) := by
  induction row with
  | nil => intro cur best; rw [maxRunAux, maxRunAux]; omega
  | cons v r ih =>
    intro cur best
    by_cases hv : (0.1 : ℚ) < v
    · rw [maxRunAux, if_pos hv, maxRunAux, if_pos hv, ih (cur + 1) best]
    · rw [maxRunAux, if_neg hv, maxRunAux, if_neg hv, ih 0 (max best cur),
        ih 0 (max 0 cur)]
      omega

/-- Generalized characterization of the scan: the scan value with a pending
run `cur` exceeds t iff the pending run extended by the active leading
segment does, or some fully contained run does. -/
lemma lt_maxRunAux_iff (row : List ℚ) :
    ∀ cur t, (t < maxRunAux row cur 0 ↔ t < cur + activeLead row ∨ HasRunGT t row) := by
  induction row with
  | nil =>
    intro cur t
    rw [maxRunAux]
    simp [activeLead, hasRunGT_nil t]
  | cons v r ih =>
    intro cur t
    by_cases hv : (0.1 : ℚ) < v
    · rw [maxRunAux, if_pos hv, ih (cur + 1) t, activeLead, if_pos hv]
      constructor
      · rintro (h | h)
        · exact Or.inl (by omega)
        · exact Or.inr (hasRunGT_cons v h)
      · rintro (h | h)
        · exact Or.inl (by omega)
        · rcases hasRunGT_cons_elim h with h' | h'
          · rw [activeLead, if_pos hv] at h'
            exact Or.inl (by omega)
          · exact Or.inr h'
    · rw [maxRunAux, if_neg hv, maxRunAux_best, activeLead, if_neg hv]
      constructor
      · intro h
        rcases lt_max_iff.mp h with h' | h'
        · exact Or.inl (by simp at h'; omega)
        · rcases (ih 0 t).mp h' with h'' | h''
          · exact Or.inr (hasRunGT_cons v (hasRunGT_of_lt_activeLead (by omega)))
          · exact Or.inr (hasRunGT_cons v h'')
      · rintro (h | h)
        · exact lt_max_iff.mpr (Or.inl (by simp; omega))
        · rcases hasRunGT_cons_elim h with h' | h'
          · rw [activeLead, if_neg hv] at h'; omega
          · exact lt_max_iff.mpr (Or.inr ((ih 0 t).mpr (Or.inr h')))

/-- The scan value `maxRun` exceeds t exactly when the row has a run
longer than t. -/
lemma lt_maxRun_iff (row : List ℚ) (t : Nat) :
    t < maxRun row ↔ HasRunGT t row := by
  rw [maxRun, lt_maxRunAux_iff row 0 t]
  constructor
  · rintro (h | h)
    · exact hasRunGT_of_lt_activeLead (by omega)
    · exact h
  · exact fun h => Or.inr h

lemma lt_bestRun_iff (g : List (List ℚ)) (t : Nat) :
    t < bestRun g ↔ ∃ row ∈ g, HasRunGT t row := by
  rw [bestRun, lt_foldl_max]
  simp [lt_maxRun_iff]

lemma lt_bestRunCols_iff (g : List (List ℚ)) (w t : Nat) :
    t < bestRunCols g w ↔ ∃ x, x < w ∧ HasRunGT t (colAt g x) := by
  rw [bestRunCols, lt_foldl_max]
  simp [lt_maxRun_iff, List.mem_range]

/-- Hand-drawn cross on a 3×3 grid, used as a concrete instance below. -/
def crossGrid : List (List ℚ) := [[0, 1, 0], [1, 1, 1], [0, 1, 0]]

/-- C5: for every occupancy grid of the stated raster dimensions, the
has_cross feature is 1.0 iff the single longest horizontal run of active
cells (value > 0.1) anywhere in the grid exceeds width/3 (integer division,
as in the source) and the single longest vertical run anywhere (i.e. in some
column x < width) exceeds height/3; otherwise it is 0.0. -/
theorem has_cross_spec (g : List (List ℚ)) (w h : Nat)
    (hh : g.length = h) (hw : ∀ row ∈ g, row.length = w) :
    (featGet (analyzeTensorFeatures g w h) "has_cross" = detectCross g w h) ∧
    (detectCross g w h = 1 ↔
      ((∃ row ∈ g, HasRunGT (w / 3) row) ∧
       (∃ x, x < w ∧ HasRunGT (h / 3) (colAt g x)))) ∧
    (detectCross g w h = 1 ∨ detectCross g w h = 0) := by
  refine ⟨rfl, ?_, ?_⟩
  · rw [detectCross]
    by_cases hc : w / 3 < bestRun g ∧ h / 3 < bestRunCols g w
    · rw [if_pos hc]
      constructor
      · intro _
        exact ⟨(lt_bestRun_iff g (w / 3)).mp hc.1, (lt_bestRunCols_iff g w (h / 3)).mp hc.2⟩
      · intro _; rfl
    · rw [if_neg hc]
      constructor
      · intro h01; exact absurd h01 (by norm_num)
      · rintro ⟨h1, h2⟩
        exact absurd ⟨(lt_bestRun_iff g (w / 3)).mpr h1,
          (lt_bestRunCols_iff g w (h / 3)).mpr h2⟩ hc
  · rw [detectCross]
    split
    · exact Or.inl rfl
    · exact Or.inr rfl

/-- Witness for the has_cross characterization at a concrete 3×3 grid. -/
theorem has_cross_spec_witness :
    crossGrid.length = 3 ∧ (∀ row ∈ crossGrid, row.length = 3) ∧
    ((featGet (analyzeTensorFeatures crossGrid 3 3) "has_cross" =
        detectCross crossGrid 3 3) ∧
     (detectCross crossGrid 3 3 = 1 ↔
       ((∃ row ∈ crossGrid, HasRunGT (3 / 3) row) ∧
        (∃ x, x < 3 ∧ HasRunGT (3 / 3) (colAt crossGrid x)))) ∧
     (detectCross crossGrid 3 3 = 1 ∨ detectCross crossGrid 3 3 = 0)) :=
  ⟨rfl, by decide, has_cross_spec crossGrid 3 3 rfl (by decide)⟩

/-! Evaluation lemmas over band-structured grids. -/

lemma mem_replicate_zero_inactive {n : Nat} {v : ℚ}
    (h : v ∈ List.replicate n (0 : ℚ)) : ¬((0.1 : ℚ) < v) := by
  rw [List.eq_of_mem_replicate h]; norm_num

/-- Longest run of a 0^a 1^(b+1) 0^c row is b+1. -/
lemma maxRun_bands (a b c : Nat) :
    maxRun (List.replicate a (0 : ℚ) ++ List.replicate (b + 1) (1 : ℚ) ++
      List.replicate c (0 : ℚ)) = b + 1 := by
  rw [List.append_assoc, maxRun]
  have hone : ∀ v ∈ List.replicate (b + 1) (1 : ℚ), (0.1 : ℚ) < v := by
    intro v hv; rw [List.eq_of_mem_replicate hv]; norm_num
  cases a with
  | zero =>
    rw [List.replicate_zero, List.nil_append, maxRunAux_active_seg hone,
      maxRunAux_all_inactive (fun v hv => mem_replicate_zero_inactive hv)]
    simp
  | succ a' =>
    rw [List.replicate_succ, maxRunAux_inactive_seg
      (fun v hv => by
        rcases List.mem_cons.mp hv with rfl | hv'
        · norm_num
        · exact mem_replicate_zero_inactive hv'),
      maxRunAux_active_seg hone,
      maxRunAux_all_inactive (fun v hv => mem_replicate_zero_inactive hv)]
    simp only [List.length_replicate]
    omega

/-- Longest run of an all-zero three-band row is 0. -/
lemma maxRun_zero_bands (a b c : Nat) :
    maxRun (List.replicate a (0 : ℚ) ++ List.replicate b (0 : ℚ) ++
      List.replicate c (0 : ℚ)) = 0 := by
  apply maxRun_all_inactive
  intro v hv
  rcases List.mem_append.mp hv with hv' | hv'
  · rcases List.mem_append.mp hv' with hv'' | hv''
    · exact mem_replicate_zero_inactive hv''
    · exact mem_replicate_zero_inactive hv''
  · exact mem_replicate_zero_inactive hv'

/-- Group count of flags false^a true^(b+1) false^c is 1. -/
lemma countGroups_bands (a b c : Nat) :
    countGroups (List.replicate a false ++ List.replicate (b + 1) true ++
      List.replicate c false) = 1 := by
  rw [List.append_assoc, countGroups]
  have tail0 : countGroupsAux (List.replicate c false) true 1 = 1 :=
    countGroupsAux_all_false (fun u hu => List.eq_of_mem_replicate hu) true 1
  cases a with
  | zero =>
    rw [List.replicate_zero, List.nil_append, countGroupsAux_true_seg, tail0]
  | succ a' =>
    rw [countGroupsAux_false_seg a' _ false 0, countGroupsAux_true_seg, tail0]

/-- getD of a replicate list. -/
lemma getD_replicate (c d : ℚ) :
    ∀ (n x : Nat), (List.replicate n c).getD x d = if x < n then c else d := by
  intro n
  induction n with
  | zero => intro x; simp
  | succ k ih =>
    intro x
    cases x with
    | zero => simp [List.replicate_succ]
    | succ x' =>
      rw [List.replicate_succ]
      simp only [List.getD_cons_succ, ih x', Nat.succ_lt_succ_iff]

/-- countP of a replicate list. -/
lemma countP_replicate (p : ℚ → Bool) (n : Nat) (c : ℚ) :
    (List.replicate n c).countP p = if p c then n else 0 := by
  induction n with
  | zero => simp
  | succ k ih =>
    rw [List.replicate_succ, List.countP_cons, ih]
    by_cases hp : p c = true
    · simp [hp]
    · simp [hp]

/-- Sum of a three-band Nat list. -/
lemma sum_bands (a b c n1 n2 n3 : Nat) :
    (List.replicate a n1 ++ List.replicate b n2 ++ List.replicate c n3).sum =
      a * n1 + b * n2 + c * n3 := by
  simp [List.sum_append, List.sum_replicate, smul_eq_mul]
  omega

/-- Enumerated rectangle of pixels, used to characterize the drawn set. -/
def rectPix (x0 y0 : Int) (nx ny : Nat) : List (Int × Int) :=
  ((List.range ny).map (fun dy : Nat =>
    (List.range nx).map (fun dx : Nat => (x0 + (dx : Int), y0 + (dy : Int))))).flatten

lemma mem_rectPix (x0 y0 : Int) (nx ny : Nat) (a b : Int) :
    ((a, b) ∈ rectPix x0 y0 nx ny) ↔
      (x0 ≤ a ∧ a < x0 + nx ∧ y0 ≤ b ∧ b < y0 + ny) := by
  rw [rectPix, List.mem_flatten]
  constructor
  · rintro ⟨row, hrow, hp⟩
    rcases List.mem_map.mp hrow with ⟨dy, hdy, rfl⟩
    rcases List.mem_map.mp hp with ⟨dx, hdx, heq⟩
    have hdy' := List.mem_range.mp hdy
    have hdx' := List.mem_range.mp hdx
    rw [Prod.mk.injEq] at heq
    obtain ⟨h1, h2⟩ := heq
    exact ⟨by omega, by omega, by omega, by omega⟩
  · rintro ⟨h1, h2, h3, h4⟩
    refine ⟨_, List.mem_map.mpr ⟨(b - y0).toNat, List.mem_range.mpr (by omega), rfl⟩,
      List.mem_map.mpr ⟨(a - x0).toNat, List.mem_range.mpr (by omega), ?_⟩⟩
    rw [Prod.mk.injEq]
    constructor
    · omega
    · omega
def pix1020 : List (Int × Int) :=
  [(9, 9), (10, 9), (11, 9), (9, 10), (10, 10), (11, 10), (9, 11), (10, 11),
   (11, 11), (19, 9), (20, 9), (21, 9), (19, 10), (20, 10), (21, 10), (19, 11),
   (20, 11), (21, 11), (9, 9), (10, 9), (11, 9), (9, 10), (10, 10), (11, 10),
   (9, 11), (10, 11), (11, 11), (9, 9), (10, 9), (11, 9), (9, 10), (10, 10),
   (11, 10), (9, 11), (10, 11), (11, 11), (10, 9), (11, 9), (12, 9), (10, 10),
   (11, 10), (12, 10), (10, 11), (11, 11), (12, 11), (11, 9), (12, 9), (13, 9),
   (11, 10), (12, 10), (13, 10), (11, 11), (12, 11), (13, 11), (12, 9), (13, 9),
   (14, 9), (12, 10), (13, 10), (14, 10), (12, 11), (13, 11), (14, 11), (13, 9),
   (14, 9), (15, 9), (13, 10), (14, 10), (15, 10), (13, 11), (14, 11), (15, 11),
   (14, 9), (15, 9), (16, 9), (14, 10), (15, 10), (16, 10), (14, 11), (15, 11),
   (16, 11), (15, 9), (16, 9), (17, 9), (15, 10), (16, 10), (17, 10), (15, 11),
   (16, 11), (17, 11), (16, 9), (17, 9), (18, 9), (16, 10), (17, 10), (18, 10),
   (16, 11), (17, 11), (18, 11), (17, 9), (18, 9), (19, 9), (17, 10), (18, 10),
   (19, 10), (17, 11), (18, 11), (19, 11), (18, 9), (19, 9), (20, 9), (18, 10),
   (19, 10), (20, 10), (18, 11), (19, 11), (20, 11), (19, 9), (20, 9), (21, 9),
   (19, 10), (20, 10), (21, 10), (19, 11), (20, 11), (21, 11)]

def pix1050 : List (Int × Int) :=
  [(9, 9), (10, 9), (11, 9), (9, 10), (10, 10), (11, 10), (9, 11), (10, 11),
   (11, 11), (49, 9), (50, 9), (51, 9), (49, 10), (50, 10), (51, 10), (49, 11),
   (50, 11), (51, 11), (9, 9), (10, 9), (11, 9), (9, 10), (10, 10), (11, 10),
   (9, 11), (10, 11), (11, 11), (9, 9), (10, 9), (11, 9), (9, 10), (10, 10),
   (11, 10), (9, 11), (10, 11), (11, 11), (10, 9), (11, 9), (12, 9), (10, 10),
   (11, 10), (12, 10), (10, 11), (11, 11), (12, 11), (11, 9), (12, 9), (13, 9),
   (11, 10), (12, 10), (13, 10), (11, 11), (12, 11), (13, 11), (12, 9), (13, 9),
   (14, 9), (12, 10), (13, 10), (14, 10), (12, 11), (13, 11), (14, 11), (13, 9),
   (14, 9), (15, 9), (13, 10), (14, 10), (15, 10), (13, 11), (14, 11), (15, 11),
   (14, 9), (15, 9), (16, 9), (14, 10), (15, 10), (16, 10), (14, 11), (15, 11),
   (16, 11), (15, 9), (16, 9), (17, 9), (15, 10), (16, 10), (17, 10), (15, 11),
   (16, 11), (17, 11), (16, 9), (17, 9), (18, 9), (16, 10), (17, 10), (18, 10),
   (16, 11), (17, 11), (18, 11), (17, 9), (18, 9), (19, 9), (17, 10), (18, 10),
   (19, 10), (17, 11), (18, 11), (19, 11), (18, 9), (19, 9), (20, 9), (18, 10),
   (19, 10), (20, 10), (18, 11), (19, 11), (20, 11), (19, 9), (20, 9), (21, 9),
   (19, 10), (20, 10), (21, 10), (19, 11), (20, 11), (21, 11), (20, 9), (21, 9),
   (22, 9), (20, 10), (21, 10), (22, 10), (20, 11), (21, 11), (22, 11), (21, 9),
   (22, 9), (23, 9), (21, 10), (22, 10), (23, 10), (21, 11), (22, 11), (23, 11),
   (22, 9), (23, 9), (24, 9), (22, 10), (23, 10), (24, 10), (22, 11), (23, 11),
   (24, 11), (23, 9), (24, 9), (25, 9), (23, 10), (24, 10), (25, 10), (23, 11),
   (24, 11), (25, 11), (24, 9), (25, 9), (26, 9), (24, 10), (25, 10), (26, 10),
   (24, 11), (25, 11), (26, 11), (25, 9), (26, 9), (27, 9), (25, 10), (26, 10),
   (27, 10), (25, 11), (26, 11), (27, 11), (26, 9), (27, 9), (28, 9), (26, 10),
   (27, 10), (28, 10), (26, 11), (27, 11), (28, 11), (27, 9), (28, 9), (29, 9),
   (27, 10), (28, 10), (29, 10), (27, 11), (28, 11), (29, 11), (28, 9), (29, 9),
   (30, 9), (28, 10), (29, 10), (30, 10), (28, 11), (29, 11), (30, 11), (29, 9),
   (30, 9), (31, 9), (29, 10), (30, 10), (31, 10), (29, 11), (30, 11), (31, 11),
   (30, 9), (31, 9), (32, 9), (30, 10), (31, 10), (32, 10), (30, 11), (31, 11),
   (32, 11), (31, 9), (32, 9), (33, 9), (31, 10), (32, 10), (33, 10), (31, 11),
   (32, 11), (33, 11), (32, 9), (33, 9), (34, 9), (32, 10), (33, 10), (34, 10),
   (32, 11), (33, 11), (34, 11), (33, 9), (34, 9), (35, 9), (33, 10), (34, 10),
   (35, 10), (33, 11), (34, 11), (35, 11), (34, 9), (35, 9), (36, 9), (34, 10),
   (35, 10), (36, 10), (34, 11), (35, 11), (36, 11), (35, 9), (36, 9), (37, 9),
   (35, 10), (36, 10), (37, 10), (35, 11), (36, 11), (37, 11), (36, 9), (37, 9),
   (38, 9), (36, 10), (37, 10), (38, 10), (36, 11), (37, 11), (38, 11), (37, 9),
   (38, 9), (39, 9), (37, 10), (38, 10), (39, 10), (37, 11), (38, 11), (39, 11),
   (38, 9), (39, 9), (40, 9), (38, 10), (39, 10), (40, 10), (38, 11), (39, 11),
   (40, 11), (39, 9), (40, 9), (41, 9), (39, 10), (40, 10), (41, 10), (39, 11),
   (40, 11), (41, 11), (40, 9), (41, 9), (42, 9), (40, 10), (41, 10), (42, 10),
   (40, 11), (41, 11), (42, 11), (41, 9), (42, 9), (43, 9), (41, 10), (42, 10),
   (43, 10), (41, 11), (42, 11), (43, 11), (42, 9), (43, 9), (44, 9), (42, 10),
   (43, 10), (44, 10), (42, 11), (43, 11), (44, 11), (43, 9), (44, 9), (45, 9),
   (43, 10), (44, 10), (45, 10), (43, 11), (44, 11), (45, 11), (44, 9), (45, 9),
   (46, 9), (44, 10), (45, 10), (46, 10), (44, 11), (45, 11), (46, 11), (45, 9),
   (46, 9), (47, 9), (45, 10), (46, 10), (47, 10), (45, 11), (46, 11), (47, 11),
   (46, 9), (47, 9), (48, 9), (46, 10), (47, 10), (48, 10), (46, 11), (47, 11),
   (48, 11), (47, 9), (48, 9), (49, 9), (47, 10), (48, 10), (49, 10), (47, 11),
   (48, 11), (49, 11), (48, 9), (49, 9), (50, 9), (48, 10), (49, 10), (50, 10),
   (48, 11), (49, 11), (50, 11), (49, 9), (50, 9), (51, 9), (49, 10), (50, 10),
   (51, 10), (49, 11), (50, 11), (51, 11)]

/-- The spec scenario's stroke: a horizontal segment (10,10)→(20,10). -/
def s1020 : Stroke := ⟨[⟨10, 10⟩, ⟨20, 10⟩]⟩

/-- The same segment stretched to (10,10)→(50,10), long enough that its
43-pixel-wide drawn band reaches the width/10 = 30 run minimum of the line
detector on a 300×300 raster. -/
def s1050 : Stroke := ⟨[⟨10, 10⟩, ⟨50, 10⟩]⟩

set_option maxRecDepth 40000 in
lemma ap1020 : activePixels [s1020] 300 300 = pix1020 :=
  of_decide_eq_true (by with_unfolding_all rfl)

set_option maxRecDepth 40000 in
lemma pix1020_sub : ∀ p ∈ pix1020, p ∈ rectPix 9 9 13 3 := by decide

set_option maxRecDepth 40000 in
lemma pix1020_sup : ∀ p ∈ rectPix 9 9 13 3, p ∈ pix1020 := by decide

/-- The short segment lights exactly the 13×3 rectangle [9,21]×[9,11]. -/
lemma isActive1020 (x y : Nat) :
    isActiveB [s1020] 300 300 x y = decide (9 ≤ x ∧ x ≤ 21 ∧ 9 ≤ y ∧ y ≤ 11) := by
  rw [isActiveB, ap1020, decide_eq_decide]
  constructor
  · intro hp
    have h := (mem_rectPix 9 9 13 3 x y).mp (pix1020_sub _ hp)
    omega
  · intro hineq
    exact pix1020_sup _ ((mem_rectPix 9 9 13 3 x y).mpr (by omega))

/-- All-background row of the 300-wide raster. -/
def zrow300 : List ℚ := List.replicate 300 0

/-- Drawn row of the short segment: active exactly on x ∈ [9, 21]. -/
def arow1020 : List ℚ :=
  List.replicate 9 0 ++ List.replicate 13 1 ++ List.replicate 278 0

lemma row1020_zero {y : Nat} (hy : ¬(9 ≤ y ∧ y ≤ 11)) :
    (List.range 300).map
      (fun x => if isActiveB [s1020] 300 300 x y then (1 : ℚ) else 0) = zrow300 := by
  refine List.eq_replicate_iff.mpr ⟨by simp, ?_⟩
  intro v hv
  rcases List.mem_map.mp hv with ⟨x, _, rfl⟩
  rw [isActive1020, if_neg (by simp only [decide_eq_true_eq]; omega)]

lemma row1020_band {y : Nat} (hy : 9 ≤ y ∧ y ≤ 11) :
    (List.range 300).map
      (fun x => if isActiveB [s1020] 300 300 x y then (1 : ℚ) else 0) = arow1020 := by
  have h : (List.range 300).map
      (fun x => if isActiveB [s1020] 300 300 x y then (1 : ℚ) else 0) =
      (List.range (9 + 13 + 278)).map
      (fun x => if isActiveB [s1020] 300 300 x y then (1 : ℚ) else 0) := rfl
  rw [h, arow1020]
  refine range_map_bands 9 13 278 _ 0 1 0 ?_ ?_ ?_
  · intro x hx
    rw [isActive1020, if_neg (by simp only [decide_eq_true_eq]; omega)]
  · intro x hx1 hx2
    rw [isActive1020, if_pos (by simp only [decide_eq_true_eq]; omega)]
  · intro x hx1 hx2
    rw [isActive1020, if_neg (by simp only [decide_eq_true_eq]; omega)]

/-- Band structure of the tensor drawn from the short segment. -/
lemma grid1020 : tensorRows [s1020] 300 300 =
    List.replicate 9 zrow300 ++ List.replicate 3 arow1020 ++
      List.replicate 288 zrow300 := by
  have h : tensorRows [s1020] 300 300 =
      (List.range (9 + 3 + 288)).map (fun y => (List.range 300).map
        (fun x => if isActiveB [s1020] 300 300 x y then (1 : ℚ) else 0)) := rfl
  rw [h]
  refine range_map_bands 9 3 288 _ zrow300 arow1020 zrow300 ?_ ?_ ?_
  · intro y hy; exact row1020_zero (by omega)
  · intro y hy1 hy2; exact row1020_band ⟨by omega, by omega⟩
  · intro y hy1 hy2; exact row1020_zero (by omega)

/-- The structured form of the short-segment tensor. -/
def gridS1020 : List (List ℚ) :=
  List.replicate 9 zrow300 ++ List.replicate 3 arow1020 ++ List.replicate 288 zrow300

lemma grid1020S : tensorRows [s1020] 300 300 = gridS1020 := grid1020

lemma maxRun_zrow300 : maxRun zrow300 = 0 :=
  maxRun_all_inactive (fun _ hv => mem_replicate_zero_inactive hv)

lemma maxRun_arow1020 : maxRun arow1020 = 13 := maxRun_bands 9 12 278

lemma hl1020 : detectHorizontalLines gridS1020 300 300 = 0 := by
  rw [detectHorizontalLines]
  apply countGroups_all_false
  intro b hb
  simp only [gridS1020, List.map_append, List.map_replicate] at hb
  rcases List.mem_append.mp hb with hb' | hb'
  · rcases List.mem_append.mp hb' with hb'' | hb''
    · rw [List.eq_of_mem_replicate hb'', maxRun_zrow300]; decide
    · rw [List.eq_of_mem_replicate hb'', maxRun_arow1020]; decide
  · rw [List.eq_of_mem_replicate hb', maxRun_zrow300]; decide

lemma getD_zrow300 (x : Nat) : zrow300.getD x 0 = 0 := by
  rw [zrow300, getD_replicate]
  split <;> rfl

lemma getD_arow1020 (x : Nat) :
    arow1020.getD x 0 = if 9 ≤ x ∧ x ≤ 21 then (1 : ℚ) else 0 := by
  rw [arow1020]
  rcases Nat.lt_or_ge x 9 with h9 | h9
  · rw [List.getD_append _ _ _ _ (by simp; omega),
      List.getD_append _ _ _ _ (by simp; omega), getD_replicate,
      if_pos h9, if_neg (by omega)]
  rcases Nat.lt_or_ge x 22 with h22 | h22
  · rw [List.getD_append _ _ _ _ (by simp; omega),
      List.getD_append_right _ _ _ _ (by simp; omega), getD_replicate]
    simp only [List.length_replicate]
    rw [if_pos (by omega), if_pos (by omega)]
  · rw [List.getD_append_right _ _ _ _ (by simp; omega), getD_replicate,
      if_neg (show ¬(9 ≤ x ∧ x ≤ 21) by omega)]
    split
    · rfl
    · rfl

lemma colAt1020 (x : Nat) : colAt gridS1020 x =
    List.replicate 9 (0 : ℚ) ++
      List.replicate 3 (if 9 ≤ x ∧ x ≤ 21 then (1 : ℚ) else 0) ++
      List.replicate 288 (0 : ℚ) := by
  rw [colAt]
  simp only [gridS1020, List.map_append, List.map_replicate, getD_zrow300, getD_arow1020]

lemma vl1020 : detectVerticalLines gridS1020 300 300 = 0 := by
  rw [detectVerticalLines]
  apply countGroups_all_false
  intro b hb
  rcases List.mem_map.mp hb with ⟨x, _, rfl⟩
  rw [colAt1020 x]
  by_cases hx : 9 ≤ x ∧ x ≤ 21
  · rw [if_pos hx, maxRun_bands 9 2 288]; decide
  · rw [if_neg hx, maxRun_zero_bands]; decide

lemma dc1020 : densityCount gridS1020 = 39 := by
  have act0 : (decide ((0.1 : ℚ) < (0 : ℚ))) = false := decide_eq_false (by norm_num)
  have act1 : (decide ((0.1 : ℚ) < (1 : ℚ))) = true := decide_eq_true (by norm_num)
  rw [densityCount]
  simp only [gridS1020, List.map_append, List.map_replicate]
  rw [show (zrow300.countP (fun v => decide ((0.1 : ℚ) < v))) = 0 by
      rw [zrow300, countP_replicate]
      simp only [act0]
      rfl,
    show (arow1020.countP (fun v => decide ((0.1 : ℚ) < v))) = 13 by
      rw [arow1020, List.countP_append, List.countP_append, countP_replicate,
        countP_replicate, countP_replicate]
      simp only [act0, act1]
      rfl,
    sum_bands]

lemma featHL1020 :
    featGet (analyzeTensorFeatures gridS1020 300 300) "horizontal_lines" = 0 := by
  have h : featGet (analyzeTensorFeatures gridS1020 300 300) "horizontal_lines" =
      ((detectHorizontalLines gridS1020 300 300 : Nat) : ℚ) := rfl
  rw [h, hl1020]
  norm_num

lemma featVL1020 :
    featGet (analyzeTensorFeatures gridS1020 300 300) "vertical_lines" = 0 := by
  have h : featGet (analyzeTensorFeatures gridS1020 300 300) "vertical_lines" =
      ((detectVerticalLines gridS1020 300 300 : Nat) : ℚ) := rfl
  rw [h, vl1020]
  norm_num

lemma featSH1020 :
    featGet (analyzeTensorFeatures gridS1020 300 300) "has_single_horizontal" = 0 := by
  have h : featGet (analyzeTensorFeatures gridS1020 300 300) "has_single_horizontal" =
      detectSingleHorizontal gridS1020 300 300 := rfl
  rw [h, detectSingleHorizontal, hl1020, vl1020, if_neg (by omega)]

lemma featSV1020 :
    featGet (analyzeTensorFeatures gridS1020 300 300) "has_single_vertical" = 0 := by
  have h : featGet (analyzeTensorFeatures gridS1020 300 300) "has_single_vertical" =
      detectSingleVertical gridS1020 300 300 := rfl
  rw [h, detectSingleVertical, hl1020, vl1020, if_neg (by omega)]

lemma featDen1020 :
    featGet (analyzeTensorFeatures gridS1020 300 300) "density" =
      (39 : ℚ) / 90000 := by
  have h : featGet (analyzeTensorFeatures gridS1020 300 300) "density" =
      (densityCount gridS1020 : ℚ) / ((300 * 300 : Nat) : ℚ) := rfl
  rw [h, dc1020]
  norm_num

lemma pri1020 : priorityCandidates (analyzeTensorFeatures gridS1020 300 300) 1 = [] := by
  rw [priorityCandidates,
    if_neg (fun hc => absurd hc.1 (by decide)),
    if_neg (fun hc => absurd hc.1 (by decide)),
    if_neg (fun hc => absurd hc.1 (by decide)),
    if_neg (fun hc => absurd (featSH1020 ▸ hc.2) (by norm_num)),
    if_neg (fun hc => absurd (featSV1020 ▸ hc.2) (by norm_num))]
  rfl

lemma fall1020 : fallbackCandidates (analyzeTensorFeatures gridS1020 300 300) 1 =
    [⟨"丶", 0.8⟩, ⟨"。", 0.6⟩] := by
  rw [fallbackCandidates,
    if_pos rfl,
    if_neg (featHL1020 ▸ (by norm_num : ¬((0.5 : ℚ) < (0 : ℚ)))),
    if_neg (featVL1020 ▸ (by norm_num : ¬((0.5 : ℚ) < (0 : ℚ)))),
    if_pos (featDen1020 ▸ (by norm_num : (39 : ℚ) / 90000 < 0.01)),
    if_neg (by decide : ¬(1 = 2)),
    if_neg (by decide : ¬(1 = 3)),
    if_neg (by omega : ¬(4 ≤ 1))]
  rfl

lemma pre1020 : generateCandidatesPre (analyzeTensorFeatures gridS1020 300 300) 1 =
    [⟨"丶", 0.8⟩, ⟨"。", 0.6⟩] := by
  have h1 : candidatesWithFallback (analyzeTensorFeatures gridS1020 300 300) 1 =
      [⟨"丶", 0.8⟩, ⟨"。", 0.6⟩] := by
    rw [candidatesWithFallback, pri1020, fall1020]
    rfl
  have h2 : candidatesWithDensity (analyzeTensorFeatures gridS1020 300 300) 1 =
      [⟨"丶", 0.8⟩, ⟨"。", 0.6⟩] := by
    rw [candidatesWithDensity, h1,
      if_neg (featDen1020 ▸ (by norm_num : ¬((0.1 : ℚ) < (39 : ℚ) / 90000)))]
    rfl
  rw [generateCandidatesPre, h2]
  rfl

/-- C3 counterexample: the spec's one-stroke scenario (10,10)→(20,10) on a
300×300 raster with strokeCount 1 and topN = 1 ≥ 1 puts ("丶", 0.8) first,
not ("一", 0.9): the 13-pixel-wide drawn band stays far below the
width/10 = 30 minimum of the run detector, every line count is 0, and the
density 39/90000 < 0.01 selects the dot fallback. -/
theorem short_horizontal_segment_cex :
    Recognize [s1020] 300 300 1 = .ok [⟨"丶", 0.8⟩] ∧
    ∀ cs, Recognize [s1020] 300 300 1 = .ok cs → cs.head? ≠ some ⟨"一", 0.9⟩ := by
  have h0 : Recognize [s1020] 300 300 1 =
      .ok (generateCandidatesFromFeatures
        (analyzeTensorFeatures (tensorRows [s1020] 300 300) 300 300) 1 1) := rfl
  have hmain : Recognize [s1020] 300 300 1 = .ok [⟨"丶", 0.8⟩] := by
    rw [h0, grid1020S, generateCandidatesFromFeatures, pre1020,
      if_pos (by norm_num)]
    rfl
  refine ⟨hmain, ?_⟩
  intro cs hcs
  rw [hmain] at hcs
  injection hcs with h'
  subst h'
  intro hhead
  simp only [List.head?] at hhead
  injection hhead with h2
  obtain ⟨ht, -⟩ := Candidate.mk.injEq .. |>.mp h2
  exact absurd ht (by decide)

set_option maxRecDepth 40000 in
lemma ap1050 : activePixels [s1050] 300 300 = pix1050 :=
  of_decide_eq_true (by with_unfolding_all rfl)

set_option maxRecDepth 40000 in
lemma pix1050_sub : ∀ p ∈ pix1050, p ∈ rectPix 9 9 43 3 := by decide

set_option maxRecDepth 40000 in
lemma pix1050_sup : ∀ p ∈ rectPix 9 9 43 3, p ∈ pix1050 := by decide

/-- The long segment lights exactly the 43×3 rectangle [9,51]×[9,11]. -/
lemma isActive1050 (x y : Nat) :
    isActiveB [s1050] 300 300 x y = decide (9 ≤ x ∧ x ≤ 51 ∧ 9 ≤ y ∧ y ≤ 11) := by
  rw [isActiveB, ap1050, decide_eq_decide]
  constructor
  · intro hp
    have h := (mem_rectPix 9 9 43 3 x y).mp (pix1050_sub _ hp)
    omega
  · intro hineq
    exact pix1050_sup _ ((mem_rectPix 9 9 43 3 x y).mpr (by omega))

/-- Drawn row of the long segment: active exactly on x ∈ [9, 51]. -/
def arow1050 : List ℚ :=
  List.replicate 9 0 ++ List.replicate 43 1 ++ List.replicate 248 0

lemma row1050_zero {y : Nat} (hy : ¬(9 ≤ y ∧ y ≤ 11)) :
    (List.range 300).map
      (fun x => if isActiveB [s1050] 300 300 x y then (1 : ℚ) else 0) = zrow300 := by
  refine List.eq_replicate_iff.mpr ⟨by simp, ?_⟩
  intro v hv
  rcases List.mem_map.mp hv with ⟨x, _, rfl⟩
  rw [isActive1050, if_neg (by simp only [decide_eq_true_eq]; omega)]

lemma row1050_band {y : Nat} (hy : 9 ≤ y ∧ y ≤ 11) :
    (List.range 300).map
      (fun x => if isActiveB [s1050] 300 300 x y then (1 : ℚ) else 0) = arow1050 := by
  have h : (List.range 300).map
      (fun x => if isActiveB [s1050] 300 300 x y then (1 : ℚ) else 0) =
      (List.range (9 + 43 + 248)).map
      (fun x => if isActiveB [s1050] 300 300 x y then (1 : ℚ) else 0) := rfl
  rw [h, arow1050]
  refine range_map_bands 9 43 248 _ 0 1 0 ?_ ?_ ?_
  · intro x hx
    rw [isActive1050, if_neg (by simp only [decide_eq_true_eq]; omega)]
  · intro x hx1 hx2
    rw [isActive1050, if_pos (by simp only [decide_eq_true_eq]; omega)]
  · intro x hx1 hx2
    rw [isActive1050, if_neg (by simp only [decide_eq_true_eq]; omega)]

/-- The structured form of the long-segment tensor. -/
def gridS1050 : List (List ℚ) :=
  List.replicate 9 zrow300 ++ List.replicate 3 arow1050 ++ List.replicate 288 zrow300

lemma grid1050S : tensorRows [s1050] 300 300 = gridS1050 := by
  have h : tensorRows [s1050] 300 300 =
      (List.range (9 + 3 + 288)).map (fun y => (List.range 300).map
        (fun x => if isActiveB [s1050] 300 300 x y then (1 : ℚ) else 0)) := rfl
  rw [h, gridS1050]
  refine range_map_bands 9 3 288 _ zrow300 arow1050 zrow300 ?_ ?_ ?_
  · intro y hy; exact row1050_zero (by omega)
  · intro y hy1 hy2; exact row1050_band ⟨by omega, by omega⟩
  · intro y hy1 hy2; exact row1050_zero (by omega)

lemma maxRun_arow1050 : maxRun arow1050 = 43 := maxRun_bands 9 42 248

lemma hl1050 : detectHorizontalLines gridS1050 300 300 = 1 := by
  rw [detectHorizontalLines]
  simp only [gridS1050, List.map_append, List.map_replicate]
  rw [show (decide (300 / 10 ≤ maxRun zrow300)) = false by
      rw [maxRun_zrow300]; decide,
    show (decide (300 / 10 ≤ maxRun arow1050)) = true by
      rw [maxRun_arow1050]; decide]
  exact countGroups_bands 9 2 288

lemma getD_arow1050 (x : Nat) :
    arow1050.getD x 0 = if 9 ≤ x ∧ x ≤ 51 then (1 : ℚ) else 0 := by
  rw [arow1050]
  rcases Nat.lt_or_ge x 9 with h9 | h9
  · rw [List.getD_append _ _ _ _ (by simp; omega),
      List.getD_append _ _ _ _ (by simp; omega), getD_replicate,
      if_pos h9, if_neg (by omega)]
  rcases Nat.lt_or_ge x 52 with h52 | h52
  · rw [List.getD_append _ _ _ _ (by simp; omega),
      List.getD_append_right _ _ _ _ (by simp; omega), getD_replicate]
    simp only [List.length_replicate]
    rw [if_pos (by omega), if_pos (by omega)]
  · rw [List.getD_append_right _ _ _ _ (by simp; omega), getD_replicate,
      if_neg (show ¬(9 ≤ x ∧ x ≤ 51) by omega)]
    split
    · rfl
    · rfl

lemma colAt1050 (x : Nat) : colAt gridS1050 x =
    List.replicate 9 (0 : ℚ) ++
      List.replicate 3 (if 9 ≤ x ∧ x ≤ 51 then (1 : ℚ) else 0) ++
      List.replicate 288 (0 : ℚ) := by
  rw [colAt]
  simp only [gridS1050, List.map_append, List.map_replicate, getD_zrow300, getD_arow1050]

lemma vl1050 : detectVerticalLines gridS1050 300 300 = 0 := by
  rw [detectVerticalLines]
  apply countGroups_all_false
  intro b hb
  rcases List.mem_map.mp hb with ⟨x, _, rfl⟩
  rw [colAt1050 x]
  by_cases hx : 9 ≤ x ∧ x ≤ 51
  · rw [if_pos hx, maxRun_bands 9 2 288]; decide
  · rw [if_neg hx, maxRun_zero_bands]; decide

lemma dc1050 : densityCount gridS1050 = 129 := by
  have act0 : (decide ((0.1 : ℚ) < (0 : ℚ))) = false := decide_eq_false (by norm_num)
  have act1 : (decide ((0.1 : ℚ) < (1 : ℚ))) = true := decide_eq_true (by norm_num)
  rw [densityCount]
  simp only [gridS1050, List.map_append, List.map_replicate]
  rw [show (zrow300.countP (fun v => decide ((0.1 : ℚ) < v))) = 0 by
      rw [zrow300, countP_replicate]
      simp only [act0]
      rfl,
    show (arow1050.countP (fun v => decide ((0.1 : ℚ) < v))) = 43 by
      rw [arow1050, List.countP_append, List.countP_append, countP_replicate,
        countP_replicate, countP_replicate]
      simp only [act0, act1]
      rfl,
    sum_bands]

lemma featSH1050 :
    featGet (analyzeTensorFeatures gridS1050 300 300) "has_single_horizontal" = 1 := by
  have h : featGet (analyzeTensorFeatures gridS1050 300 300) "has_single_horizontal" =
      detectSingleHorizontal gridS1050 300 300 := rfl
  rw [h, detectSingleHorizontal, hl1050, vl1050, if_pos (by omega)]

lemma featSV1050 :
    featGet (analyzeTensorFeatures gridS1050 300 300) "has_single_vertical" = 0 := by
  have h : featGet (analyzeTensorFeatures gridS1050 300 300) "has_single_vertical" =
      detectSingleVertical gridS1050 300 300 := rfl
  rw [h, detectSingleVertical, hl1050, vl1050, if_neg (by omega)]

lemma featDen1050 :
    featGet (analyzeTensorFeatures gridS1050 300 300) "density" =
      (129 : ℚ) / 90000 := by
  have h : featGet (analyzeTensorFeatures gridS1050 300 300) "density" =
      (densityCount gridS1050 : ℚ) / ((300 * 300 : Nat) : ℚ) := rfl
  rw [h, dc1050]
  norm_num

lemma pri1050 : priorityCandidates (analyzeTensorFeatures gridS1050 300 300) 1 =
    [⟨"一", 0.9⟩, ⟨"ー", 0.7⟩] := by
  rw [priorityCandidates,
    if_neg (fun hc => absurd hc.1 (by decide)),
    if_neg (fun hc => absurd hc.1 (by decide)),
    if_neg (fun hc => absurd hc.1 (by decide)),
    if_pos ⟨rfl, featSH1050 ▸ (by norm_num : (0.5 : ℚ) < 1)⟩,
    if_neg (fun hc => absurd (featSV1050 ▸ hc.2) (by norm_num))]
  rfl

lemma pre1050 : generateCandidatesPre (analyzeTensorFeatures gridS1050 300 300) 1 =
    [⟨"一", 0.9⟩, ⟨"ー", 0.7⟩] := by
  have h1 : candidatesWithFallback (analyzeTensorFeatures gridS1050 300 300) 1 =
      [⟨"一", 0.9⟩, ⟨"ー", 0.7⟩] := by
    rw [candidatesWithFallback, pri1050]
    rfl
  have h2 : candidatesWithDensity (analyzeTensorFeatures gridS1050 300 300) 1 =
      [⟨"一", 0.9⟩, ⟨"ー", 0.7⟩] := by
    rw [candidatesWithDensity, h1,
      if_neg (featDen1050 ▸ (by norm_num : ¬((0.1 : ℚ) < (129 : ℚ) / 90000)))]
    rfl
  rw [generateCandidatesPre, h2]
  rfl

/-- C3, as amendable to the code's actual behaviour: the same one-stroke
horizontal scenario drawn long enough to reach the width/10 run minimum —
points (10,10) and (50,10) on the 300×300 raster — yields, for every
topN ≥ 1, a candidate list whose first entry is ("一", 0.9). -/
theorem long_horizontal_segment_first_candidate (topN : Int) (htop : 1 ≤ topN) :
    ∃ cs, Recognize [s1050] 300 300 topN = .ok cs ∧
      cs.head? = some ⟨"一", 0.9⟩ := by
  have h0 : Recognize [s1050] 300 300 topN =
      .ok (generateCandidatesFromFeatures
        (analyzeTensorFeatures (tensorRows [s1050] 300 300) 300 300) 1
        (if topN ≤ 0 then 10 else topN)) := rfl
  rw [if_neg (by omega : ¬(topN ≤ 0))] at h0
  rw [h0, grid1050S, generateCandidatesFromFeatures, pre1050]
  by_cases hc : topN < (([⟨"一", (0.9 : ℚ)⟩, ⟨"ー", 0.7⟩] : List Candidate).length : Int)
  · rw [if_pos hc]
    have hc2 : topN < 2 := by simpa using hc
    have h1 : topN.toNat = 1 := by omega
    rw [h1]
    exact ⟨_, rfl, rfl⟩
  · rw [if_neg hc]
    exact ⟨_, rfl, rfl⟩

/-- Witness of the amended scenario at topN = 1. -/
theorem long_horizontal_segment_first_candidate_witness :
    (1 : Int) ≤ 1 ∧ ∃ cs, Recognize [s1050] 300 300 1 = .ok cs ∧
      cs.head? = some ⟨"一", 0.9⟩ :=
  ⟨by norm_num, long_horizontal_segment_first_candidate 1 (by norm_num)⟩

/-- Timestamp argument of a store call (0 for a delete). -/
def storeTs : StoreCall → Int
  | .save _ _ _ ts _ => ts
  | .del _ _ => 0

/-- C1: one broadcast pass delivers the envelope to exactly the registered
connections whose send succeeds, closes exactly the failing ones, and the
registry afterwards holds exactly the non-failing connections — one bad peer
never blocks delivery to others and nothing else is removed. -/
theorem broadcast_fault_isolation (env : WsMessage) (clients : List Conn)
    (sendOk : Conn → Bool) :
    (broadcast env clients sendOk).sends =
      (clients.filter sendOk).map (fun c => (c, env)) ∧
    (broadcast env clients sendOk).clients = clients.filter sendOk ∧
    (broadcast env clients sendOk).closed =
      clients.filter (fun c => !(sendOk c)) := by
  induction clients with
  | nil => exact ⟨rfl, rfl, rfl⟩
  | cons c rest ih =>
    obtain ⟨ih1, ih2, ih3⟩ := ih
    by_cases hc : sendOk c
    · simp only [broadcast, if_pos hc, List.filter_cons, hc]
      simp [ih1, ih2, ih3]
    · simp only [broadcast, if_neg hc]
      simp only [List.filter_cons]
      simp at hc
      simp [ih1, ih2, ih3, hc]

/-- C2: a stroke envelope whose caller identity is unresolved triggers no
store call and is broadcast once, its stroke unchanged except for the
zero-timestamp default — in particular its id keeps its original (zero on
the wire) value. -/
theorem unresolved_identity_relay (now : Int) (saveRes : Except String Int)
    (s : WsStroke) (d : Option Int) :
    (handleMessage none now saveRes ⟨"stroke", some s, d⟩).storeCalls = [] ∧
    (handleMessage none now saveRes ⟨"stroke", some s, d⟩).broadcasts =
      [⟨"stroke", some (if s.startedAtUnixMs = 0 then
        { s with startedAtUnixMs := now } else s), d⟩] ∧
    ((if s.startedAtUnixMs = 0 then { s with startedAtUnixMs := now } else s).id
      = s.id) := by
  refine ⟨rfl, rfl, ?_⟩
  split
  · rfl
  · rfl

/-- C4 counterexample: a stroke envelope with an EMPTY points list arriving
with resolved identity is still passed to the store's save operation (the
session loop has no points-presence gate), contradicting the claim that such
an envelope is never persisted. -/
theorem empty_points_stroke_persisted_cex :
    (handleMessage (some 1) 5 (.ok 7)
      ⟨"stroke", some ⟨0, [], "#000", 2, "cid", 3⟩, none⟩).storeCalls =
      [StoreCall.save 1 "#000" 2 3 []] := rfl

/-- C4 as amendable to the code: persistence of a stroke envelope is gated
only on identity resolution, never on points presence — with identity
resolved the stroke is saved exactly once with its points list as-is (empty
or not), and the envelope is broadcast exactly once either way. -/
theorem stroke_persist_gated_on_identity_not_points (uid now : Int)
    (saveRes : Except String Int) (s : WsStroke) (d : Option Int) :
    (handleMessage (some uid) now saveRes ⟨"stroke", some s, d⟩).storeCalls =
      [StoreCall.save uid s.color s.width
        (if s.startedAtUnixMs = 0 then now else s.startedAtUnixMs) s.points] ∧
    (handleMessage (some uid) now saveRes ⟨"stroke", some s, d⟩).broadcasts.length = 1 ∧
    (handleMessage none now saveRes ⟨"stroke", some s, d⟩).storeCalls = [] ∧
    (handleMessage none now saveRes ⟨"stroke", some s, d⟩).broadcasts.length = 1 := by
  refine ⟨?_, rfl, rfl, rfl⟩
  by_cases hts : s.startedAtUnixMs = 0
  · simp [handleMessage, hts]
  · simp [handleMessage, hts]

/-- C10: the session loop defaults a zero client StartedAtUnixMs to the
server clock before persisting and broadcasting, and passes a nonzero one
through unchanged to both. -/
theorem started_at_timestamp_policy (auth : Option Int) (now : Int)
    (saveRes : Except String Int) (s : WsStroke) (d : Option Int) :
    ((handleMessage auth now saveRes ⟨"stroke", some s, d⟩).broadcasts.map
      (fun b => b.stroke.map WsStroke.startedAtUnixMs)) =
      [some (if s.startedAtUnixMs = 0 then now else s.startedAtUnixMs)] ∧
    ((handleMessage auth now saveRes ⟨"stroke", some s, d⟩).storeCalls.map storeTs) =
      (match auth with
       | some _ => [if s.startedAtUnixMs = 0 then now else s.startedAtUnixMs]
       | none => []) := by
  cases auth <;> by_cases hts : s.startedAtUnixMs = 0 <;>
    rcases saveRes with _ | _ <;> simp [handleMessage, hts, storeTs]

/-- C7: classifying an empty stroke list returns an empty candidate list and
no error, for both recognizer implementations, every raster size and every
topN. -/
theorem recognize_empty_strokes (w h : Nat) (topN : Int)
    (dirOf shapeOf : Stroke → String) :
    Recognize [] w h topN = .ok [] ∧
    SimpleRecognize dirOf shapeOf [] w h topN = .ok [] := by
  constructor
  · simp [Recognize]
  · simp [SimpleRecognize]

/-- C8: classification is deterministic — two invocations with identical
strokes, raster dimensions and topN return identical ordered candidate
lists (the pipeline reads nothing but its arguments). -/
theorem recognize_deterministic (s1 s2 : List Stroke) (w1 w2 h1 h2 : Nat)
    (n1 n2 : Int) (hs : s1 = s2) (hw : w1 = w2) (hh : h1 = h2) (hn : n1 = n2) :
    Recognize s1 w1 h1 n1 = Recognize s2 w2 h2 n2 := by
  subst hs; subst hw; subst hh; subst hn; rfl

/-- Witness of determinism at a concrete invocation pair. -/
theorem recognize_deterministic_witness :
    ([⟨[⟨1, 1⟩]⟩] : List Stroke) = [⟨[⟨1, 1⟩]⟩] ∧
    Recognize [⟨[⟨1, 1⟩]⟩] 3 3 1 = Recognize [⟨[⟨1, 1⟩]⟩] 3 3 1 :=
  ⟨rfl, recognize_deterministic _ _ _ _ _ _ _ _ rfl rfl rfl rfl⟩

/-- C9: for positive raster dimensions the rasterizer returns exactly
width×height cells, every cell is exactly 0 or exactly 1, and an empty
stroke list yields an all-zero tensor. -/
theorem strokesToTensor_cells (strokes : List Stroke) (w h : Nat)
    (hw : 0 < w) (hh : 0 < h) :
    (strokesToTensor strokes w h).length = w * h ∧
    (∀ v ∈ strokesToTensor strokes w h, v = 0 ∨ v = 1) ∧
    (strokes = [] → ∀ v ∈ strokesToTensor strokes w h, v = 0) := by
  refine ⟨?_, ?_, ?_⟩
  · rw [strokesToTensor, List.length_flatten]
    have hmap : (tensorRows strokes w h).map List.length = List.replicate h w := by
      rw [tensorRows, List.map_map]
      refine List.eq_replicate_iff.mpr ⟨by simp, ?_⟩
      intro z hz
      rcases List.mem_map.mp hz with ⟨y, _, rfl⟩
      simp [Function.comp]
    rw [hmap, List.sum_replicate, smul_eq_mul]
    exact Nat.mul_comm h w
  · intro v hv
    rw [strokesToTensor] at hv
    rcases List.mem_flatten.mp hv with ⟨row, hrow, hvrow⟩
    rw [tensorRows] at hrow
    rcases List.mem_map.mp hrow with ⟨y, _, rfl⟩
    rcases List.mem_map.mp hvrow with ⟨x, _, rfl⟩
    by_cases hA : isActiveB strokes w h x y
    · right; rw [if_pos hA]
    · left; rw [if_neg hA]
  · rintro rfl v hv
    rw [strokesToTensor] at hv
    rcases List.mem_flatten.mp hv with ⟨row, hrow, hvrow⟩
    rw [tensorRows] at hrow
    rcases List.mem_map.mp hrow with ⟨y, _, rfl⟩
    rcases List.mem_map.mp hvrow with ⟨x, _, rfl⟩
    rw [if_neg (by simp [isActiveB, activePixels])]

/-- Witness of the rasterizer cell invariants at a 2×2 raster. -/
theorem strokesToTensor_cells_witness :
    (0 < 2) ∧
    ((strokesToTensor [] 2 2).length = 2 * 2 ∧
     (∀ v ∈ strokesToTensor [] 2 2, v = 0 ∨ v = 1) ∧
     (([] : List Stroke) = [] → ∀ v ∈ strokesToTensor [] 2 2, v = 0)) :=
  ⟨by decide, strokesToTensor_cells [] 2 2 (by decide) (by decide)⟩

/-- C6: a requested cap topN ≤ 0 is replaced by 10; the returned list never
exceeds the effective cap; and the result is exactly the first effective-cap
candidates of the untruncated generation-order list, with no re-sorting. -/
theorem recognize_topN_policy (s : List Stroke) (w h : Nat) (topN : Int)
    (hs : s ≠ []) :
    (topN ≤ 0 → Recognize s w h topN = Recognize s w h 10) ∧
    (∀ cs, Recognize s w h topN = .ok cs →
      cs.length ≤ (if topN ≤ 0 then (10 : Int) else topN).toNat ∧
      cs = (generateCandidatesPre
        (analyzeTensorFeatures (tensorRows s w h) w h) s.length).take
        (if topN ≤ 0 then (10 : Int) else topN).toNat) := by
  have hslen : ¬(s.length = 0) := by simpa [List.length_eq_zero] using hs
  have h0 : Recognize s w h topN =
      .ok (generateCandidatesFromFeatures
        (analyzeTensorFeatures (tensorRows s w h) w h) s.length
        (if topN ≤ 0 then 10 else topN)) := by
    simp only [Recognize]
    rw [if_neg hslen]
  constructor
  · intro hn
    have h10 : Recognize s w h 10 =
        .ok (generateCandidatesFromFeatures
          (analyzeTensorFeatures (tensorRows s w h) w h) s.length
          (if (10 : Int) ≤ 0 then 10 else 10)) := by
      simp only [Recognize]
      rw [if_neg hslen]
    rw [h0, h10, if_pos hn, if_neg (by norm_num)]
  · intro cs hcs
    rw [h0] at hcs
    injection hcs with hcs'
    subst hcs'
    set T : Int := if topN ≤ 0 then (10 : Int) else topN with hT
    have hT1 : (1 : Int) ≤ T := by rw [hT]; split <;> omega
    set P : List Candidate := generateCandidatesPre
      (analyzeTensorFeatures (tensorRows s w h) w h) s.length with hP
    rw [generateCandidatesFromFeatures]
    by_cases hc : T < (P.length : Int)
    · rw [if_pos hc]
      constructor
      · rw [List.length_take]; omega
      · rfl
    · rw [if_neg hc]
      have hle : P.length ≤ T.toNat := by omega
      constructor
      · exact hle
      · rw [List.take_of_length_le hle]

/-- Witness of the topN policy at a concrete one-stroke input with topN = 0. -/
theorem recognize_topN_policy_witness :
    ([⟨[⟨1, 1⟩]⟩] : List Stroke) ≠ [] ∧
    (((0 : Int) ≤ 0 → Recognize [⟨[⟨1, 1⟩]⟩] 3 3 0 = Recognize [⟨[⟨1, 1⟩]⟩] 3 3 10) ∧
     (∀ cs, Recognize [⟨[⟨1, 1⟩]⟩] 3 3 0 = .ok cs →
       cs.length ≤ (if (0 : Int) ≤ 0 then (10 : Int) else 0).toNat ∧
       cs = (generateCandidatesPre
         (analyzeTensorFeatures (tensorRows [⟨[⟨1, 1⟩]⟩] 3 3) 3 3)
         ([⟨[⟨1, 1⟩]⟩] : List Stroke).length).take
         (if (0 : Int) ≤ 0 then (10 : Int) else 0).toNat)) :=
  ⟨by simp, recognize_topN_policy _ 3 3 0 (by simp)⟩
